import Mathlib

/-!
# Verification of the tokenlock/token trading front end

A shallow embedding, in Lean 4, of the core of the repository:

* the event bus (`events.py`): subscription registry and `publish` dispatch;
* the streaming client (`stream.py`): the level-one quote-cache merge
  (`parse_levelone_equities_entry`), the account-activity fixed-point decode
  (`parse_account_activity_entry`), and the receive loop (`recv_streamer`);
* the credential engine (`tokenx.py`): the token exchange
  (`_request_schwab_token`, `get_token`), the refresh sleep
  (`async_refresh_token`), and the auth-code retry loop (`get_auth_code`).

Python values parsed from JSON frames are modelled by the inductive `Json`
below; Python `None` is `Json.null`.  Machine floats in the source are
modelled by exact rationals (`ℚ`): every numeric claim below is about the
real-arithmetic value of the corresponding Python expression.
-/

namespace TokenLock

/-- A parsed JSON value, as produced by `json.loads`.  Objects keep their
key/value pairs in insertion order, like Python dicts. -/
inductive Json where
  | null
  | bool (flag : Bool)
  | num (value : ℚ)
  | str (text : String)
  | arr (items : List Json)
  | obj (entries : List (String × Json))

/-- Structural (deep) equality of JSON values, mirroring Python `==` on the
corresponding dict/list/scalar trees. -/
def Json.beq (a b : Json) : Bool :=
  match a, b with
  | .obj e₁, .obj e₂ => eqEntries e₁ e₂
  | .arr i₁, .arr i₂ => eqItems i₁ i₂
  | .str t₁, .str t₂ => t₁ == t₂
  | .num v₁, .num v₂ => v₁ == v₂
  | .bool f₁, .bool f₂ => f₁ == f₂
  | .null, .null => true
  | _, _ => false
where
  eqItems : List Json → List Json → Bool
    | i :: is, j :: js => Json.beq i j && eqItems is js
    | [], [] => true
    | _, _ => false
  eqEntries : List (String × Json) → List (String × Json) → Bool
    | (n₁, w₁) :: es₁, (n₂, w₂) :: es₂ =>
        n₁ == n₂ && Json.beq w₁ w₂ && eqEntries es₁ es₂
    | [], [] => true
    | _, _ => false


/-- A Python dict with string keys holding JSON values (e.g. one `content`
element of a level-one frame). -/
abbrev JDict := List (String × Json)

/-- Python `d.get(k)` (default `None`): the stored value if the key is
present, `None` otherwise.  A stored JSON `null` is Python `None` as well,
so both absence and a stored `null` read back as `Json.null`. -/
def JDict.getD (d : JDict) (k : String) : Json :=
  match d.find? (fun p => p.1 == k) with
  | some p => p.2
  | none => Json.null

/-- The keys the quote-cache code (`stream.py` lines 133–156) ever writes
into a per-symbol record: `"symbol"` (set at record creation), the four
static identity keys, `"timestamp"`, and the nine mapped numeric names from
`levelone_equities_map` (`stream.py` lines 21–31). -/
inductive QuoteField where
  | symbol
  | delayed
  | assetMainType
  | assetSubType
  | cusip
  | timestamp
  | bid_price
  | ask_price
  | last_price
  | bid_size
  | ask_size
  | total_volume
  | high_price
  | low_price
  | close_price
deriving DecidableEq

/-- A cached quote record (one value of `self.levelone_cache`).  `Json.null`
on a field stands for "key absent or stored `None`": the merge code reads
fields only through the guarded test `field not in stock or stock[field] is
None`, which identifies the two, and its writes always make the key
present, so the collapsed view determines the behaviour exactly. -/
abbrev Stock := QuoteField → Json

/-- Python `stock[f] = v`. -/
def Stock.set (s : Stock) (f : QuoteField) (v : Json) : Stock :=
  fun g => if g = f then v else s g

/-- The fresh record `{"symbol": symbol}` inserted for an unseen symbol
(`stream.py` line 139). -/
def initStock (symbol : Json) : Stock :=
  fun f => if f = QuoteField.symbol then symbol else Json.null

/-- The dict `self.levelone_cache`: symbol key → cached record; `none` = key absent.
The key is whatever `content.get("key")` returned (a symbol string in every
real frame), compared by structural equality. -/
abbrev Cache := Json → Option Stock

/-- Python `self.levelone_cache[symbol] = stock`. -/
def Cache.set (c : Cache) (k : Json) (st : Stock) : Cache :=
  fun k' => if Json.beq k' k then some st else c k'

/-- The table `self.levelone_equities_map` (`stream.py` lines 21–31): field code →
record key, in insertion order. -/
def levelone_equities_map : List (String × QuoteField) :=
  [("1", .bid_price), ("2", .ask_price), ("3", .last_price),
   ("4", .bid_size), ("5", .ask_size), ("8", .total_volume),
   ("10", .high_price), ("11", .low_price), ("12", .close_price)]

/-- The static identity keys iterated at `stream.py` line 143, paired with
their record fields. -/
def staticFields : List (QuoteField × String) :=
  [(.delayed, "delayed"), (.assetMainType, "assetMainType"),
   (.assetSubType, "assetSubType"), (.cusip, "cusip")]

/-- Source `stream.py` lines 143–145: each static identity field is written from
the frame only when it is absent or `None` in the record. -/
def mergeStatic (s : Stock) (ct : JDict) : Stock :=
  staticFields.foldl
    (fun s fp => if Json.beq (s fp.1) Json.null then s.set fp.1 (ct.getD fp.2) else s) s

/-- Source `stream.py` lines 150–153: each mapped numeric code present (non-`None`)
in the frame overwrites the record; absent codes are skipped. -/
def mergeMapped (s : Stock) (ct : JDict) : Stock :=
  levelone_equities_map.foldl
    (fun s kv =>
      let val := ct.getD kv.1
      if Json.beq val Json.null then s else s.set kv.2 val) s

/-- One iteration of the `for content in entry.get("content", [])` loop of
`parse_levelone_equities_entry` (`stream.py` lines 136–155): create the
record if the symbol is unseen, merge static fields, overwrite the
timestamp with the frame's (possibly absent) timestamp, merge the mapped
numeric fields, and return the new cache together with the snapshot copy
appended to `parsed`. -/
def applyContent (c : Cache) (timestamp : Json) (ct : JDict) : Cache × Stock :=
  let symbol := ct.getD "key"
  let stock₀ :=
    match c symbol with
    | some s => s
    | none => initStock symbol
  let s₁ := mergeStatic stock₀ ct
  let s₂ := s₁.set .timestamp timestamp
  let s₃ := mergeMapped s₂ ct
  (c.set symbol s₃, s₃)

/-- Folding a sequence of partial level-one updates (each a frame timestamp
plus one `content` dict) into the cache, in order. -/
def applyUpdates (c : Cache) (ups : List (Json × JDict)) : Cache :=
  ups.foldl (fun c u => (applyContent c u.1 u.2).1) c

/-- Python `(d.get? k)`: the stored value when the key is present (even when
it is JSON `null`), `none` when it is absent.  Used where the source
distinguishes key presence from a stored `None` (`f in token_dict`,
`dict.get(k, default)`). -/
def JDict.get? (d : JDict) (k : String) : Option Json :=
  (d.find? (fun p => p.1 == k)).map (fun p => p.2)

/-- Python `f in d` on a dict: key presence, regardless of stored value. -/
def JDict.hasKey (d : JDict) (k : String) : Bool :=
  (d.get? k).isSome

/-- The payload of the `FillEvent` built at `stream.py` line 236 from the
constructor of `events.py` lines 92–103; `order_id` and `order_type` are
the two entries of its `meta` dict. -/
structure FillData where
  symbol : Json
  timestamp : Json
  quantity : ℚ
  signal : Json
  fill_price : ℚ
  commission : ℚ
  order_id : Json
  order_type : Json

/-- The event variants the core publishes (`events.py`; `SignalEvent` and
`OrderEvent` belong to the out-of-scope strategy/portfolio components and
are never published by the embedded code). -/
inductive Event where
  | tokenEvent (access_token : Json)
  | marketEvent (data : List Stock)
  | fillEvent (fill : FillData)

/-- Python `event.type` (`events.py` lines 52–54): the event's class name,
used as the subscription key. -/
def Event.type : Event → String
  | .tokenEvent _ => "TokenEvent"
  | .marketEvent _ => "MarketEvent"
  | .fillEvent _ => "FillEvent"

/-- A subscriber callback, abstracted by an identity for tracing, the
`asyncio.iscoroutinefunction` test the bus applies to it (`events.py` line
40), and — for a synchronous callback — whether calling it on a given event
raises (`some msg`) or returns normally (`none`). -/
structure Handler where
  hid : ℕ
  isAsync : Bool
  act : Event → Option String

/-- The registry `self.subscribers` (`events.py` line 10): a
`defaultdict(list)` mapping event-kind name to its handlers in
registration order, modelled as an insertion-ordered association list. -/
abbrev Subscribers := List (String × List Handler)

/-- Python `EventBus.subscribe` (`events.py` lines 12–21):
`self.subscribers[event_type].append(subscriber)` — appends to the kind's
list, creating it when absent (defaultdict). -/
def subscribe : Subscribers → String → Handler → Subscribers
  | [], t, h => [(t, [h])]
  | (k, hs) :: rest, t, h =>
      if k = t then (k, hs ++ [h]) :: rest else (k, hs) :: subscribe rest t h

/-- The handlers `publish` iterates for a kind: `self.subscribers[event_type]`
when `event_type in self.subscribers`, nothing otherwise (`events.py`
lines 37–38). -/
def subscribersFor (subs : Subscribers) (t : String) : List Handler :=
  match subs.find? (fun p => p.1 == t) with
  | some p => p.2
  | none => []

/-- What one call of `EventBus.publish` did: the synchronous handlers it
invoked inline (in order, including one that raised), the asynchronous
handlers it handed to `asyncio.create_task` (in order), and the exception
that propagated to the caller, if any. -/
structure PublishResult where
  invoked : List ℕ
  scheduled : List ℕ
  exc : Option String

/-- The `for subscriber in self.subscribers[event_type]` loop of
`EventBus.publish` (`events.py` lines 38–46): a coroutine subscriber is
scheduled fire-and-forget; a synchronous subscriber is called inline, and
if it raises, the exception propagates and the remaining subscribers are
not reached. -/
def publishGo (e : Event) : List Handler → PublishResult
  | [] => ⟨[], [], none⟩
  | h :: rest =>
      if h.isAsync then
        let r := publishGo e rest
        { r with scheduled := h.hid :: r.scheduled }
      else
        match h.act e with
        | some msg => ⟨[h.hid], [], some msg⟩
        | none =>
            let r := publishGo e rest
            { r with invoked := h.hid :: r.invoked }

/-- Python `EventBus.publish` (`events.py` lines 30–46). -/
def publish (subs : Subscribers) (e : Event) : PublishResult :=
  publishGo e (subscribersFor subs e.type)

/-- Python `j.get(k)` on a JSON value: dict lookup defaulting to `None`;
any non-dict (including `None`) has no `.get` and raises
`AttributeError`. -/
def Json.pyGet (j : Json) (k : String) : Except String Json :=
  match j with
  | .obj kvs => .ok (JDict.getD kvs k)
  | _ => .error "AttributeError: no attribute get"

/-- Python `j.get(k, d)` on a JSON value: like `pyGet` but with an explicit
default returned only when the key is absent. -/
def Json.pyGetD (j : Json) (k : String) (d : Json) : Except String Json :=
  match j with
  | .obj kvs => .ok ((JDict.get? kvs k).getD d)
  | _ => .error "AttributeError: no attribute get"

/-- Python `for x in j` where the protocol promises a JSON array; iterating
any other shape is a type error (dicts iterate keys and strings iterate
characters in Python, but no conforming frame carries those here, and the
loop bodies would fail on them at the first `.get`). -/
def Json.pyIter (j : Json) : Except String (List Json) :=
  match j with
  | .arr xs => .ok xs
  | _ => .error "TypeError: not an array"

/-- Python `j` viewed as a dict, as required by `content.get(...)` inside
the level-one content loop. -/
def Json.asObj (j : Json) : Except String JDict :=
  match j with
  | .obj kvs => .ok kvs
  | _ => .error "AttributeError: no attribute get"

/-- Python `int(x)` on a decoded JSON value: truncates a number toward
zero, parses an integer string, converts a boolean; anything else raises. -/
def pyInt (j : Json) : Except String ℤ :=
  match j with
  | .num q => .ok (q.num.tdiv q.den)
  | .str s =>
      match s.toInt? with
      | some n => .ok n
      | none => .error "ValueError: invalid literal for int"
  | .bool b => .ok (if b then 1 else 0)
  | _ => .error "TypeError: int() argument"

/-- The fixed-point decode applied to each of `ExecutionQuantity`,
`ExecutionPrice` and `ActualChargedCommissionAmount` at `stream.py` lines
227–234: `int(d.get("lo", 0)) / (10 ** int(d.get("signScale", 0))) * 10**6`,
modelled in exact rational arithmetic (the Python expression computes it
in binary floating point). -/
def decodeFixedPoint (d : Json) : Except String ℚ := do
  let lo ← pyInt (← d.pyGetD "lo" (.num 0))
  let s ← pyInt (← d.pyGetD "signScale" (.num 0))
  pure ((lo : ℚ) / (10 : ℚ) ^ s * 10 ^ (6 : ℕ))

/-- Python `DataStream.parse_account_activity_entry` (`stream.py` lines
211–236): for each content whose order status is `"OrderFillCompleted"`,
extract the nested order info and build a `FillEvent` whose quantity,
price and commission come from `decodeFixedPoint`; the returned list holds
the events it publishes, in order. -/
def parse_account_activity_entry (entry : Json) : Except String (List Event) := do
  let timestamp ← entry.pyGet "timestamp"
  let contents ← (← entry.pyGetD "content" (.arr [])).pyIter
  contents.foldlM
    (fun acc content => do
      let order_status ← content.pyGet "2"
      if Json.beq order_status (Json.str "OrderFillCompleted") then do
        let order_fill_detail ← content.pyGet "3"
        let order_id ← order_fill_detail.pyGet "SchwabOrderID"
        let base_event ← order_fill_detail.pyGetD "BaseEvent" (.obj [])
        let order_leg_info ←
          base_event.pyGetD "OrderFillCompletedEventOrderLegQuantityInfo" (.obj [])
        let order_post_info ←
          order_leg_info.pyGetD "OrderInfoForTransactionPosting" (.obj [])
        let symbol ← order_post_info.pyGet "Symbol"
        let signal ← order_post_info.pyGet "BuySellCode"
        let order_type ← order_post_info.pyGet "OrderTypeCode"
        let exec_info ← order_leg_info.pyGetD "ExecutionInfo" (.obj [])
        let fill_quantity ← decodeFixedPoint (← exec_info.pyGetD "ExecutionQuantity" (.obj []))
        let fill_price ← decodeFixedPoint (← exec_info.pyGetD "ExecutionPrice" (.obj []))
        let commission ←
          decodeFixedPoint (← exec_info.pyGetD "ActualChargedCommissionAmount" (.obj []))
        pure (acc ++ [Event.fillEvent
          ⟨symbol, timestamp, fill_quantity, signal, fill_price, commission,
           order_id, order_type⟩])
      else
        pure acc)
    []

/-- Python `DataStream.parse_levelone_equities_entry` (`stream.py` lines
133–156) acting on a cache: merge every content of the entry in order and
collect the snapshot copies appended to `parsed`. -/
def parse_levelone_equities_entry (c : Cache) (entry : Json) :
    Except String (Cache × List Stock) := do
  let timestamp ← entry.pyGet "timestamp"
  let contents ← (← entry.pyGetD "content" (.arr [])).pyIter
  contents.foldlM
    (fun (acc : Cache × List Stock) content => do
      let ct ← content.asObj
      let r := applyContent acc.1 timestamp ct
      pure (r.1, acc.2 ++ [r.2]))
    (c, [])

/-- The mutable state `recv_streamer` touches: the login-acknowledged
signal `self.connected` and the level-one quote cache. -/
structure StreamState where
  connected : Bool
  levelone_cache : Cache

/-- One `response` element (`stream.py` lines 164–176): a successful ADMIN
LOGIN acknowledgment sets the connected signal; a successful SUBS
acknowledgment is only logged.  The `content.get("code")` lookup is
reached only when the service/command guard holds, mirroring Python's
short-circuit `and`. -/
def handleResponse (st : StreamState) (r : Json) : Except String StreamState := do
  let service ← r.pyGet "service"
  let command ← r.pyGet "command"
  let content ← r.pyGetD "content" (.obj [])
  if Json.beq service (Json.str "ADMIN") && Json.beq command (Json.str "LOGIN") then do
    let code ← content.pyGet "code"
    if Json.beq code (Json.num 0) then pure { st with connected := true } else pure st
  else if Json.beq command (Json.str "SUBS") then do
    let _ ← content.pyGet "code"
    pure st
  else
    pure st

/-- One `data` element (`stream.py` lines 179–189): a `LEVELONE_EQUITIES`
entry is merged into the cache and, when the parsed list is nonempty,
published as a `MarketEvent`; an `ACCT_ACTIVITY` entry is only printed —
`parse_account_activity_entry` is not called and nothing is published for
it; other services are ignored. -/
def handleDataEntry (st : StreamState) (entry : Json) :
    Except String (StreamState × List Event) := do
  let service ← entry.pyGet "service"
  if Json.beq service (Json.str "LEVELONE_EQUITIES") then do
    let r ← parse_levelone_equities_entry st.levelone_cache entry
    let st' := { st with levelone_cache := r.1 }
    if r.2.isEmpty then pure (st', []) else pure (st', [Event.marketEvent r.2])
  else if Json.beq service (Json.str "ACCT_ACTIVITY") then
    pure (st, [])
  else
    pure (st, [])

/-- Processing of one inbound message by the `async for msg in self.ws`
body (`stream.py` lines 160–189).  `none` models a message whose text
`json.loads` rejects; the raised `JSONDecodeError` is not caught by any
handler of `recv_streamer`.  A frame of unexpected shape likewise raises
out of the body (`AttributeError`/`TypeError`). -/
def handleFrame (st : StreamState) (msg : Option Json) :
    Except String (StreamState × List Event) := do
  match msg with
  | none => throw "json.JSONDecodeError: invalid message"
  | some raw => do
      let responses ← (← raw.pyGetD "response" (.arr [])).pyIter
      let st ← responses.foldlM handleResponse st
      let datas ← (← raw.pyGetD "data" (.arr [])).pyIter
      datas.foldlM
        (fun (acc : StreamState × List Event) entry => do
          let r ← handleDataEntry acc.1 entry
          pure (r.1, acc.2 ++ r.2))
        (st, [])

/-- Python `DataStream.recv_streamer` (`stream.py` lines 158–194) run over a
finite inbound message sequence.  The list ending models the socket
closing (`ConnectionClosed` — caught and logged, line 193) or the task
being cancelled (caught, line 191), so the loop ends with no error; any
other exception escaping a frame's processing is caught by neither
`except` clause, so it kills the task: the remaining messages are never
read and the error is reported.  Returns the final state, every event
published on the bus (in order), and the escaping error if any. -/
def recv_streamer (st : StreamState) :
    List (Option Json) → StreamState × List Event × Option String
  | [] => (st, [], none)
  | msg :: rest =>
      match handleFrame st msg with
      | .error e => (st, [], some e)
      | .ok (st', evs) =>
          let r := recv_streamer st' rest
          (r.1, evs ++ r.2.1, r.2.2)

/-- The credential fields of `TokenEngine` (`tokenx.py` lines 26–28):
`self.access_token`, `self.refresh_token`, `self.token_expires_in`.  All
start as `None`; the expiry budget is a number of seconds (exact rational
standing for the Python float). -/
structure TokenState where
  access_token : Option Json
  refresh_token : Option Json
  token_expires_in : Option ℚ

/-- The observable outcome of the `requests.post` to the token endpoint in
`_request_schwab_token`: the request or status check raised
(`requests.exceptions.RequestException`), the body was not JSON
(`response.json()` raised `ValueError`), or a JSON dict was returned. -/
inductive TokenHttpResult where
  | requestError (msg : String)
  | notJson (text : String)
  | json (body : JDict)

/-- Python `TokenEngine._request_schwab_token` (`tokenx.py` lines 90–131).
`elapsed` is the measured `time.time() - timestamp` round trip of the
request.  Every failure is raised before any credential field is written:
an HTTP/request error becomes a `RuntimeError`, a non-JSON body a
`ValueError`, a body missing `access_token` or `refresh_token` a
`ValueError`, and a body without `expires_in` a `KeyError` from
`token_dict["expires_in"]`.  On success `self.token_expires_in` is set to
`expires_in` minus the elapsed time and the token dict is returned.  (A
present but non-numeric `expires_in` would make the Python subtraction
raise `TypeError`; the endpoint contract promises a numeric field.) -/
def _request_schwab_token (st : TokenState) (resp : TokenHttpResult) (elapsed : ℚ) :
    TokenState × Except String JDict :=
  match resp with
  | .requestError m => (st, .error ("RuntimeError: token request failed: " ++ m))
  | .notJson t => (st, .error ("ValueError: non-JSON token response: " ++ t))
  | .json body =>
      if body.hasKey "access_token" && body.hasKey "refresh_token" then
        match body.get? "expires_in" with
        | none => (st, .error "KeyError: expires_in")
        | some (.num q) =>
            ({ st with token_expires_in := some (q - elapsed) }, .ok body)
        | some _ => (st, .error "TypeError: expires_in is not numeric")
      else
        (st, .error "ValueError: token response missing required fields")

/-- Python `TokenEngine.get_token` (`tokenx.py` lines 133–152): run the
token exchange; on success store the new refresh and access tokens and
publish `TokenEvent(access_token)`.  Returns the resulting credential
state, the events published by the call, and the exception propagated to
the caller if the exchange raised. -/
def get_token (st : TokenState) (resp : TokenHttpResult) (elapsed : ℚ) :
    TokenState × List Event × Option String :=
  match _request_schwab_token st resp elapsed with
  | (st', .error e) => (st', [], some e)
  | (st', .ok body) =>
      let st'' := { st' with
        refresh_token := some (body.getD "refresh_token"),
        access_token := some (body.getD "access_token") }
      (st'', [Event.tokenEvent (body.getD "access_token")], none)

/-- The duration of the `await asyncio.sleep(self.token_expires_in)` at the
top of each `async_refresh_token` iteration (`tokenx.py` line 162): the
currently stored expiry budget. -/
def async_refresh_token_sleep (st : TokenState) : Option ℚ :=
  st.token_expires_in

/-- The retry delay of `get_auth_code` before the `(n+1)`-st consecutive
retry: `retry_delay` starts at `5` (`tokenx.py` line 40) and after each
sleep becomes `min(retry_delay * 1.5, 60)` (line 73).  `1.5` is exact in
binary floating point and every product here stays exactly representable,
so the rational value coincides with the Python float. -/
def backoffDelay : ℕ → ℚ
  | 0 => 5
  | n + 1 => min (backoffDelay n * (3 / 2)) 60

/-- How one connection attempt of the `while` loop of `get_auth_code`
(`tokenx.py` lines 43–75) ends: the connect raised
`ConnectionClosedError`; it raised some other exception; it raised
`InvalidURI` (fatal, `break`); or the connect succeeded — resetting
`retry_count` and `retry_delay` (lines 47–48) — and the session later
ended (connection closed), falling through to the same retry section. -/
inductive AttemptOutcome where
  | closed
  | failed
  | fatalURI
  | session
deriving DecidableEq

/-- Python `TokenEngine.get_auth_code`'s retry loop (`tokenx.py` lines
43–75), driven by the outcome of each successive connection attempt, with
`rc` the current `retry_count` and `d` the current `retry_delay`; returns
the successive `asyncio.sleep` delays.  An `InvalidURI` breaks out with no
sleep; otherwise `retry_count` is incremented and, while it has not passed
`max_retry = 100`, the loop sleeps the current delay and grows it by the
capped multiplier; past the ceiling it logs and stops. -/
def get_auth_code_sleeps : ℕ → ℚ → List AttemptOutcome → List ℚ
  | _, _, [] => []
  | _, _, .fatalURI :: _ => []
  | _, _, .session :: rest => next 0 5 rest
  | rc, d, .closed :: rest => next rc d rest
  | rc, d, .failed :: rest => next rc d rest
where
  next (rc : ℕ) (d : ℚ) (rest : List AttemptOutcome) : List ℚ :=
    if rc + 1 ≤ 100 then
      d :: get_auth_code_sleeps (rc + 1) (min (d * (3 / 2)) 60) rest
    else
      []

/-- A well-formed `OrderFillCompleted` account-activity entry carrying the
nesting `parse_account_activity_entry` walks (`stream.py` lines 211–236),
with fixed identity strings and the three fixed-point pairs as
parameters. -/
def fillEntry (loQ sQ loP sP loC sC : ℤ) : Json :=
  Json.obj [("service", .str "ACCT_ACTIVITY"), ("timestamp", .num 1700000000000),
    ("content", .arr [Json.obj [
      ("2", .str "OrderFillCompleted"),
      ("3", Json.obj [
        ("SchwabOrderID", .str "SW1001"),
        ("BaseEvent", Json.obj [
          ("OrderFillCompletedEventOrderLegQuantityInfo", Json.obj [
            ("OrderInfoForTransactionPosting", Json.obj [
              ("Symbol", .str "SGOV"), ("BuySellCode", .str "B"),
              ("OrderTypeCode", .str "M")]),
            ("ExecutionInfo", Json.obj [
              ("ExecutionQuantity", Json.obj [
                ("lo", .num (loQ : ℚ)), ("signScale", .num (sQ : ℚ))]),
              ("ExecutionPrice", Json.obj [
                ("lo", .num (loP : ℚ)), ("signScale", .num (sP : ℚ))]),
              ("ActualChargedCommissionAmount", Json.obj [
                ("lo", .num (loC : ℚ)), ("signScale", .num (sC : ℚ))])])])])])]])]

/-- The failure modes of the token exchange enumerated by the spec: the
HTTP request raised, the response was not JSON, or the JSON body lacks
`access_token` or `refresh_token`. -/
def tokenRequestFails : TokenHttpResult → Prop
  | .requestError _ => True
  | .notJson _ => True
  | .json body => (body.hasKey "access_token" && body.hasKey "refresh_token") = false

mutual

theorem Json.beq_iff : ∀ (a b : Json), Json.beq a b = true ↔ a = b
  | .null, b => by cases b <;> simp [Json.beq]
  | .bool f₁, b => by cases b <;> simp [Json.beq]
  | .num v₁, b => by cases b <;> simp [Json.beq]
  | .str t₁, b => by cases b <;> simp [Json.beq]
  | .arr i₁, b => by
      cases b <;> simp [Json.beq]
      exact Json.eqItems_iff i₁ _
  | .obj e₁, b => by
      cases b <;> simp [Json.beq]
      exact Json.eqEntries_iff e₁ _

theorem Json.eqItems_iff :
    ∀ (is js : List Json), Json.beq.eqItems is js = true ↔ is = js
  | [], js => by cases js <;> simp [Json.beq.eqItems]
  | i :: is, js => by
      cases js with
      | nil => simp [Json.beq.eqItems]
      | cons j js => simp [Json.beq.eqItems, Json.beq_iff i j, Json.eqItems_iff is js]

theorem Json.eqEntries_iff :
    ∀ (es fs : List (String × Json)), Json.beq.eqEntries es fs = true ↔ es = fs
  | [], fs => by cases fs <;> simp [Json.beq.eqEntries]
  | (n₁, w₁) :: es, fs => by
      cases fs with
      | nil => simp [Json.beq.eqEntries]
      | cons p fs =>
          obtain ⟨n₂, w₂⟩ := p
          simp [Json.beq.eqEntries, Json.beq_iff w₁ w₂, Json.eqEntries_iff es fs]

end

theorem Json.beq_refl (a : Json) : Json.beq a a = true :=
  (Json.beq_iff a a).mpr rfl

/-- Unfolding of `publish`'s loop when no synchronous handler raises: the
synchronous handlers are invoked and the asynchronous ones scheduled, each
in registration order. -/
theorem publishGo_no_raise (e : Event) :
    ∀ hs : List Handler, (∀ h ∈ hs, h.isAsync = false → h.act e = none) →
      publishGo e hs
        = ⟨(hs.filter (fun h => !h.isAsync)).map Handler.hid,
           (hs.filter (fun h => h.isAsync)).map Handler.hid, none⟩ := by
  intro hs
  induction hs with
  | nil => intro _; rfl
  | cons h hs ih =>
      intro hyp
      have hrest : ∀ h' ∈ hs, h'.isAsync = false → h'.act e = none :=
        fun h' hm => hyp h' (List.mem_cons_of_mem _ hm)
      cases hA : h.isAsync with
      | true => simp [publishGo, hA, ih hrest]
      | false =>
          have hact := hyp h (List.mem_cons_self _ _) hA
          simp [publishGo, hA, hact, ih hrest]

/-- Unfolding of `publish`'s loop when a synchronous handler raises after a
prefix of well-behaved handlers: delivery stops at the raiser. -/
theorem publishGo_raise (e : Event) (h : Handler) (post : List Handler) (msg : String)
    (hsync : h.isAsync = false) (hraise : h.act e = some msg) :
    ∀ pre : List Handler, (∀ h' ∈ pre, h'.isAsync = false → h'.act e = none) →
      publishGo e (pre ++ h :: post)
        = ⟨(pre.filter (fun h' => !h'.isAsync)).map Handler.hid ++ [h.hid],
           (pre.filter (fun h' => h'.isAsync)).map Handler.hid, some msg⟩ := by
  intro pre
  induction pre with
  | nil => intro _; simp [publishGo, hsync, hraise]
  | cons p pre ih =>
      intro hyp
      have hrest : ∀ h' ∈ pre, h'.isAsync = false → h'.act e = none :=
        fun h' hm => hyp h' (List.mem_cons_of_mem _ hm)
      cases hA : p.isAsync with
      | true => simp [publishGo, hA, ih hrest]
      | false =>
          have hact := hyp p (List.mem_cons_self _ _) hA
          simp [publishGo, hA, hact, ih hrest]

/-- C4.  Amended: provided no synchronous handler registered for the
event's kind raises on this event, `publish` invokes each synchronous
handler exactly once, in registration order (a handler registered twice is
invoked twice), schedules the asynchronous ones in order, and returns
without an exception.  (As frozen, the claim quantifies over every
registry, including one whose handler raises; there delivery stops early —
see the counterexample and C8.) -/
theorem publish_sync_in_order (subs : Subscribers) (e : Event)
    (hok : ∀ h ∈ subscribersFor subs e.type, h.isAsync = false → h.act e = none) :
    (publish subs e).invoked
        = ((subscribersFor subs e.type).filter (fun h => !h.isAsync)).map Handler.hid
    ∧ (publish subs e).scheduled
        = ((subscribersFor subs e.type).filter (fun h => h.isAsync)).map Handler.hid
    ∧ (publish subs e).exc = none := by
  have h := publishGo_no_raise e (subscribersFor subs e.type) hok
  simp [publish, h]

/-- C4, counterexample to the claim as frozen: with two synchronous
handlers registered for `TokenEvent`, the first of which raises, `publish`
never invokes the second handler (its id never appears in the invocation
trace), so it is not the case that every registered synchronous handler is
invoked exactly once. -/
theorem publish_abort_counterexample :
    (publish [("TokenEvent",
        [⟨1, false, fun _ => some "boom"⟩, ⟨2, false, fun _ => none⟩])]
      (Event.tokenEvent Json.null)).invoked.count 2 = 0
    ∧ (publish [("TokenEvent",
        [⟨1, false, fun _ => some "boom"⟩, ⟨2, false, fun _ => none⟩])]
      (Event.tokenEvent Json.null)).exc = some "boom" :=
  ⟨rfl, rfl⟩

/-- Witness for C4: a registry with a duplicate synchronous registration
and an interleaved asynchronous one; the duplicate is invoked twice, in
order, and `publish` returns without an exception. -/
theorem publish_sync_in_order_witness :
    (publish [("TokenEvent",
        [⟨1, false, fun _ => none⟩, ⟨2, true, fun _ => none⟩, ⟨1, false, fun _ => none⟩])]
      (Event.tokenEvent Json.null)).invoked = [1, 1]
    ∧ (publish [("TokenEvent",
        [⟨1, false, fun _ => none⟩, ⟨2, true, fun _ => none⟩, ⟨1, false, fun _ => none⟩])]
      (Event.tokenEvent Json.null)).exc = none := by
  have h := publish_sync_in_order
    [("TokenEvent",
      [⟨1, false, fun _ => none⟩, ⟨2, true, fun _ => none⟩, ⟨1, false, fun _ => none⟩])]
    (Event.tokenEvent Json.null)
    (by intro h' hm hfalse
        fin_cases hm <;> rfl)
  exact ⟨h.1.trans (by rfl), h.2.2⟩

/-- C8.  If a synchronous handler raises during `publish`, the exception
propagates to the caller and delivery stops there: the result records the
raiser as the last invocation, and nothing registered after it (described
by `post`) is invoked or scheduled. -/
theorem publish_sync_exception_aborts (subs : Subscribers) (e : Event)
    (pre : List Handler) (h : Handler) (post : List Handler) (msg : String)
    (hsubs : subscribersFor subs e.type = pre ++ h :: post)
    (hpre : ∀ h' ∈ pre, h'.isAsync = false → h'.act e = none)
    (hsync : h.isAsync = false) (hraise : h.act e = some msg) :
    publish subs e
      = ⟨(pre.filter (fun h' => !h'.isAsync)).map Handler.hid ++ [h.hid],
         (pre.filter (fun h' => h'.isAsync)).map Handler.hid, some msg⟩ := by
  have hgo := publishGo_raise e h post msg hsync hraise pre hpre
  simp [publish, hsubs, hgo]

/-- Witness for C8: four handlers for `MarketEvent`, the third (synchronous)
raises; `publish` invokes 1 and 3, schedules 2, never reaches 4, and the
exception propagates. -/
theorem publish_sync_exception_aborts_witness :
    publish [("MarketEvent",
        [⟨1, false, fun _ => none⟩, ⟨2, true, fun _ => none⟩,
         ⟨3, false, fun _ => some "boom"⟩, ⟨4, false, fun _ => none⟩])]
      (Event.marketEvent [])
      = ⟨[1, 3], [2], some "boom"⟩ := by
  have h := publish_sync_exception_aborts
    [("MarketEvent",
      [⟨1, false, fun _ => none⟩, ⟨2, true, fun _ => none⟩,
       ⟨3, false, fun _ => some "boom"⟩, ⟨4, false, fun _ => none⟩])]
    (Event.marketEvent [])
    [⟨1, false, fun _ => none⟩, ⟨2, true, fun _ => none⟩]
    ⟨3, false, fun _ => some "boom"⟩
    [⟨4, false, fun _ => none⟩] "boom"
    rfl
    (by intro h' hm hfalse
        fin_cases hm <;> rfl)
    rfl rfl
  exact h.trans (by rfl)

/-- C10.  Token-exchange atomicity on failure: when the request raises, the
response is not JSON, or the body lacks `access_token` or `refresh_token`,
`get_token` leaves the whole credential state (access token, refresh
token, expiry budget) unchanged, publishes nothing, and propagates an
exception. -/
theorem token_exchange_atomic_failure (st : TokenState) (resp : TokenHttpResult)
    (elapsed : ℚ) (h : tokenRequestFails resp) :
    (get_token st resp elapsed).1 = st
    ∧ (get_token st resp elapsed).2.1 = []
    ∧ ((get_token st resp elapsed).2.2).isSome = true := by
  cases resp with
  | requestError m => simp [get_token, _request_schwab_token]
  | notJson t => simp [get_token, _request_schwab_token]
  | json body =>
      have hb : (body.hasKey "access_token" && body.hasKey "refresh_token") = false := h
      simp [get_token, _request_schwab_token, hb]

/-- Witness for C10: a response missing `refresh_token` leaves a populated
credential state untouched and publishes no event. -/
theorem token_exchange_atomic_failure_witness :
    tokenRequestFails (.json [("access_token", Json.str "AT")])
    ∧ (get_token ⟨none, none, some 100⟩ (.json [("access_token", Json.str "AT")]) 1).1
        = ⟨none, none, some 100⟩
    ∧ (get_token ⟨none, none, some 100⟩ (.json [("access_token", Json.str "AT")]) 1).2.1
        = [] := by
  have hf : tokenRequestFails (.json [("access_token", Json.str "AT")]) := rfl
  have h := token_exchange_atomic_failure ⟨none, none, some 100⟩
    (.json [("access_token", Json.str "AT")]) 1 hf
  exact ⟨hf, h.1, h.2.1⟩

/-- C7.  For every successful exchange, the stored expiry budget is the
server-reported `expires_in` minus the measured elapsed request time, and
the refresh loop's sleep is exactly that stored budget. -/
theorem token_expiry_budget (st : TokenState) (body : JDict) (e elapsed : ℚ)
    (hacc : body.hasKey "access_token" = true)
    (href : body.hasKey "refresh_token" = true)
    (hexp : body.get? "expires_in" = some (Json.num e)) :
    (get_token st (.json body) elapsed).1.token_expires_in = some (e - elapsed)
    ∧ async_refresh_token_sleep (get_token st (.json body) elapsed).1 = some (e - elapsed)
    ∧ (get_token st (.json body) elapsed).2.2 = none := by
  simp [get_token, _request_schwab_token, hacc, href, hexp, async_refresh_token_sleep]

/-- Witness for C7: `expires_in = 1800` with a measured 4.2-second round
trip schedules a refresh sleep of exactly 1795.8 seconds. -/
theorem token_expiry_budget_witness :
    (get_token ⟨none, none, none⟩
        (.json [("access_token", Json.str "AT"), ("refresh_token", Json.str "RT"),
                ("expires_in", Json.num 1800)]) (21 / 5)).1.token_expires_in
      = some (1795.8 : ℚ)
    ∧ async_refresh_token_sleep (get_token ⟨none, none, none⟩
        (.json [("access_token", Json.str "AT"), ("refresh_token", Json.str "RT"),
                ("expires_in", Json.num 1800)]) (21 / 5)).1
      = some (1795.8 : ℚ) := by
  have h := token_expiry_budget ⟨none, none, none⟩
    [("access_token", Json.str "AT"), ("refresh_token", Json.str "RT"),
     ("expires_in", Json.num 1800)] 1800 (21 / 5) rfl rfl rfl
  constructor
  · exact h.1.trans (by norm_num)
  · exact h.2.1.trans (by norm_num)


/-- Closed form of the retry delay: the delay before the `(n+1)`-st
consecutive retry is the capped geometric value `min (5 * (3/2)^n) 60`. -/
theorem backoffDelay_closed (n : ℕ) :
    backoffDelay n = min (5 * (3 / 2 : ℚ) ^ n) 60 := by
  induction n with
  | zero =>
      simp [backoffDelay]
      norm_num
  | succ n ih =>
      rw [show backoffDelay (n + 1) = min (backoffDelay n * (3 / 2)) 60 from rfl, ih,
        min_mul_of_nonneg _ _ (by norm_num : (0 : ℚ) ≤ 3 / 2), min_assoc,
        min_eq_right (by norm_num : (60 : ℚ) ≤ 60 * (3 / 2))]
      ring_nf

/-- From the eighth retry on, the delay has saturated at exactly 60. -/
theorem backoffDelay_saturates (n : ℕ) (h : 7 ≤ n) : backoffDelay n = 60 := by
  rw [backoffDelay_closed]
  refine min_eq_right ?_
  calc (60 : ℚ) ≤ 5 * (3 / 2) ^ 7 := by norm_num
    _ ≤ 5 * (3 / 2) ^ n := by
        have hp := pow_le_pow_right₀ (by norm_num : (1 : ℚ) ≤ 3 / 2) h
        linarith

/-- The sleeps of the auth-code loop under consecutive connection failures:
with `retry_count = rc` and the current delay at backoff stage `m`, `n`
straight failures produce one capped-geometric sleep per failure until the
retry ceiling is reached. -/
theorem get_auth_code_sleeps_replicate :
    ∀ (n rc m : ℕ),
      get_auth_code_sleeps rc (backoffDelay m) (List.replicate n .failed)
        = (List.range (min n (100 - rc))).map (fun i => backoffDelay (m + i)) := by
  intro n
  induction n with
  | zero => intro rc m; simp [get_auth_code_sleeps]
  | succ n ih =>
      intro rc m
      rw [List.replicate_succ]
      simp only [get_auth_code_sleeps]
      simp only [get_auth_code_sleeps.next]
      by_cases hrc : rc + 1 ≤ 100
      · rw [if_pos hrc,
          show min (backoffDelay m * (3 / 2)) 60 = backoffDelay (m + 1) from rfl,
          ih (rc + 1) (m + 1),
          show min (n + 1) (100 - rc) = min n (100 - (rc + 1)) + 1 by omega,
          List.range_succ_eq_map]
        simp only [List.map_cons, List.map_map, Nat.add_zero, List.cons.injEq, true_and]
        refine List.map_congr_left ?_
        intro i _
        simp [Function.comp]
        congr 1
        omega
      · rw [if_neg hrc, show min (n + 1) (100 - rc) = 0 by omega]
        simp

/-- C5.  The auth-code acquisition loop's backoff: under consecutive
failures the delay before the k-th retry (k ≥ 1) is
`min (5 * 1.5^(k-1), 60)` seconds; the first five delays are
5, 7.5, 11.25, 16.875, 25.3125; from the eighth retry on the delay has
saturated at exactly 60; and at most 100 retries are made before the loop
is abandoned. -/
theorem auth_backoff_schedule :
    (∀ n : ℕ, get_auth_code_sleeps 0 5 (List.replicate n .failed)
        = (List.range (min n 100)).map (fun k => min (5 * (3 / 2 : ℚ) ^ k) 60))
    ∧ get_auth_code_sleeps 0 5 (List.replicate 5 .failed)
        = [5, 15 / 2, 45 / 4, 135 / 8, 405 / 16]
    ∧ (∀ k : ℕ, 7 ≤ k → backoffDelay k = 60)
    ∧ (∀ n : ℕ, (get_auth_code_sleeps 0 5 (List.replicate n .failed)).length
        = min n 100) := by
  have key : ∀ n, get_auth_code_sleeps 0 5 (List.replicate n .failed)
      = (List.range (min n 100)).map backoffDelay := by
    intro n
    have h := get_auth_code_sleeps_replicate n 0 0
    simpa [backoffDelay] using h
  have b0 : backoffDelay 0 = 5 := rfl
  have b1 : backoffDelay 1 = 15 / 2 := by
    rw [show backoffDelay 1 = min (backoffDelay 0 * (3 / 2)) 60 from rfl, b0]
    norm_num [min_def]
  have b2 : backoffDelay 2 = 45 / 4 := by
    rw [show backoffDelay 2 = min (backoffDelay 1 * (3 / 2)) 60 from rfl, b1]
    norm_num [min_def]
  have b3 : backoffDelay 3 = 135 / 8 := by
    rw [show backoffDelay 3 = min (backoffDelay 2 * (3 / 2)) 60 from rfl, b2]
    norm_num [min_def]
  have b4 : backoffDelay 4 = 405 / 16 := by
    rw [show backoffDelay 4 = min (backoffDelay 3 * (3 / 2)) 60 from rfl, b3]
    norm_num [min_def]
  refine ⟨?_, ?_, ?_, ?_⟩
  · intro n
    rw [key n]
    exact List.map_congr_left fun i _ => backoffDelay_closed i
  · rw [key 5, show min 5 100 = 5 from rfl, show List.range 5 = [0, 1, 2, 3, 4] from rfl]
    simp [b0, b1, b2, b3, b4]
  · intro k hk
    exact backoffDelay_saturates k hk
  · intro n
    rw [key n]
    simp

/-- Witness for C5: the first five delays are exactly the claimed values,
the eighth delay onwards is exactly 60 (shown at the eighth), and 150
straight failures still produce only 100 sleeps. -/
theorem auth_backoff_schedule_witness :
    get_auth_code_sleeps 0 5 (List.replicate 5 .failed)
        = [5, 15 / 2, 45 / 4, 135 / 8, 405 / 16]
    ∧ backoffDelay 7 = 60
    ∧ (get_auth_code_sleeps 0 5 (List.replicate 150 .failed)).length = 100 := by
  obtain ⟨h1, h2, h3, h4⟩ := auth_backoff_schedule
  exact ⟨h2, h3 7 (by norm_num), (h4 150).trans (by norm_num)⟩


/-- Python `int` of a JSON value that is an integer-valued number: the cast
integer itself. -/
theorem pyInt_intCast (n : ℤ) : pyInt (Json.num (n : ℚ)) = .ok n := by
  simp [pyInt, Rat.den_intCast, Rat.num_intCast, Int.tdiv_one]

/-- The fixed-point decode on a dict with integer mantissa `lo` and
exponent `s` is exactly `lo / 10^s * 10^6`. -/
theorem decodeFixedPoint_num (lo s : ℤ) :
    decodeFixedPoint (Json.obj [("lo", Json.num (lo : ℚ)), ("signScale", Json.num (s : ℚ))])
      = .ok ((lo : ℚ) / 10 ^ s * 10 ^ (6 : ℕ)) := by
  simp [decodeFixedPoint, Json.pyGetD, JDict.get?, pyInt_intCast, bind, Except.bind,
    pure, Except.pure]

/-- Full run of `parse_account_activity_entry` on a well-formed fill entry:
one `FillEvent` with the three decoded fixed-point fields. -/
theorem parse_fillEntry (loQ sQ loP sP loC sC : ℤ) :
    parse_account_activity_entry (fillEntry loQ sQ loP sP loC sC)
      = .ok [Event.fillEvent ⟨Json.str "SGOV", Json.num 1700000000000,
          (loQ : ℚ) / 10 ^ sQ * 10 ^ (6 : ℕ), Json.str "B",
          (loP : ℚ) / 10 ^ sP * 10 ^ (6 : ℕ),
          (loC : ℚ) / 10 ^ sC * 10 ^ (6 : ℕ), Json.str "SW1001", Json.str "M"⟩] := by
  simp [parse_account_activity_entry, fillEntry, Json.pyGet, Json.pyGetD, Json.pyIter,
    JDict.getD, JDict.get?, Json.beq, decodeFixedPoint_num, bind, Except.bind,
    pure, Except.pure]

/-- The decode at the frozen claim's concrete input: `lo = 123456`,
`signScale = 2` decodes to `1234560000`. -/
theorem decode_123456_2 :
    decodeFixedPoint (Json.obj [("lo", Json.num 123456), ("signScale", Json.num 2)])
      = .ok 1234560000 := by
  have h := decodeFixedPoint_num 123456 2
  rw [show ((123456 : ℤ) : ℚ) = 123456 by norm_num,
      show ((2 : ℤ) : ℚ) = 2 by norm_num] at h
  rw [h]
  norm_num

/-- C1, counterexample to the claim as frozen: its concrete example value
is wrong by a factor of 1000 — `lo = 123456`, `signScale = 2` decodes to
`123456 / 100 * 10^6 = 1 234 560 000`, not `1 234 560 000 000`. -/
theorem fixed_point_decode_counterexample :
    decodeFixedPoint (Json.obj [("lo", Json.num 123456), ("signScale", Json.num 2)])
      = .ok 1234560000
    ∧ (1234560000 : ℚ) ≠ 1234560000000 :=
  ⟨decode_123456_2, by norm_num⟩

/-- C1.  Amended: the fixed-point decode of a nested value with integer
mantissa `lo` and decimal exponent `signScale` is `lo / 10^signScale × 10^6`
for the quantity, price and commission fields of the constructed
`FillEvent`; for `lo = 123456`, `signScale = 2` the decoded value is
`1 234 560 000` (the frozen claim's `1 234 560 000 000` is a slip), and for
`lo = 0` the decode is `0` for every `signScale`. -/
theorem fixed_point_decode (loQ sQ loP sP loC sC : ℤ) :
    parse_account_activity_entry (fillEntry loQ sQ loP sP loC sC)
      = .ok [Event.fillEvent ⟨Json.str "SGOV", Json.num 1700000000000,
          (loQ : ℚ) / 10 ^ sQ * 10 ^ (6 : ℕ), Json.str "B",
          (loP : ℚ) / 10 ^ sP * 10 ^ (6 : ℕ),
          (loC : ℚ) / 10 ^ sC * 10 ^ (6 : ℕ), Json.str "SW1001", Json.str "M"⟩]
    ∧ (∀ s : ℤ, decodeFixedPoint
        (Json.obj [("lo", Json.num 0), ("signScale", Json.num (s : ℚ))]) = .ok 0)
    ∧ decodeFixedPoint (Json.obj [("lo", Json.num 123456), ("signScale", Json.num 2)])
        = .ok 1234560000 := by
  refine ⟨parse_fillEntry loQ sQ loP sP loC sC, ?_, decode_123456_2⟩
  intro s
  have h := decodeFixedPoint_num 0 s
  rw [show ((0 : ℤ) : ℚ) = 0 by norm_num] at h
  rw [h]
  norm_num

/-- C2 (code-bug evidence).  The receive loop publishes nothing for an
`ACCT_ACTIVITY` data entry — `recv_streamer` only prints it (`stream.py`
line 189) — although `parse_account_activity_entry` (dead code, never
called by the loop) would turn the very same entry into a `FillEvent`. -/
theorem acct_activity_entry_dropped :
    (recv_streamer ⟨true, fun _ => none⟩
        [some (Json.obj [("data", Json.arr [fillEntry 123456 2 10 0 0 0])])]).2.1 = []
    ∧ (recv_streamer ⟨true, fun _ => none⟩
        [some (Json.obj [("data", Json.arr [fillEntry 123456 2 10 0 0 0])])]).2.2 = none
    ∧ parse_account_activity_entry (fillEntry 123456 2 10 0 0 0)
      = .ok [Event.fillEvent ⟨Json.str "SGOV", Json.num 1700000000000,
          ((123456 : ℤ) : ℚ) / 10 ^ ((2 : ℤ)) * 10 ^ (6 : ℕ), Json.str "B",
          ((10 : ℤ) : ℚ) / 10 ^ ((0 : ℤ)) * 10 ^ (6 : ℕ),
          ((0 : ℤ) : ℚ) / 10 ^ ((0 : ℤ)) * 10 ^ (6 : ℕ),
          Json.str "SW1001", Json.str "M"⟩] :=
  ⟨rfl, rfl, parse_fillEntry 123456 2 10 0 0 0⟩


/-- Composition of the receive loop over concatenated message sequences:
after an error-free prefix, the loop continues from the reached state. -/
theorem recv_streamer_append (msgs more : List (Option Json)) :
    ∀ st : StreamState, (recv_streamer st msgs).2.2 = none →
      recv_streamer st (msgs ++ more)
        = ((recv_streamer (recv_streamer st msgs).1 more).1,
           (recv_streamer st msgs).2.1
             ++ (recv_streamer (recv_streamer st msgs).1 more).2.1,
           (recv_streamer (recv_streamer st msgs).1 more).2.2) := by
  induction msgs with
  | nil => intro st _; simp [recv_streamer]
  | cons m ms ih =>
      intro st herr
      cases hf : handleFrame st m with
      | error e => simp [recv_streamer, hf] at herr
      | ok r =>
          obtain ⟨st', evs⟩ := r
          simp only [recv_streamer, hf, List.cons_append] at herr ⊢
          rw [show ms.append more = ms ++ more from rfl, ih st' herr]
          simp

/-- C6.  Amended: a message that is not valid JSON raises an uncaught
`json.JSONDecodeError` out of the receive loop — after any error-free
prefix, the loop stops right there with the prefix's events delivered, the
remaining frames are never read, and the error escapes the task; only the
socket closing (the end of the message sequence) ends the loop without an
error.  The frozen claim's "log and skip the offending frame, continue
reading" behaviour does not exist in the code. -/
theorem recv_bad_json_kills_loop (st : StreamState) (msgs rest : List (Option Json))
    (h : (recv_streamer st msgs).2.2 = none) :
    recv_streamer st (msgs ++ none :: rest)
      = ((recv_streamer st msgs).1, (recv_streamer st msgs).2.1,
         some "json.JSONDecodeError: invalid message")
    ∧ recv_streamer st [] = (st, [], none) := by
  refine ⟨?_, rfl⟩
  rw [recv_streamer_append msgs (none :: rest) st h]
  simp [recv_streamer, handleFrame]

/-- C6, counterexample to the claim as frozen: with a non-JSON first
message followed by a well-formed login acknowledgment, the loop dies on
the first message and never processes the second (the connected signal
stays `false` and the error escapes), although the login frame alone would
be processed fine — the loop does not skip the offending frame and
continue. -/
theorem recv_bad_frame_counterexample :
    (recv_streamer ⟨false, fun _ => none⟩
        [none, some (Json.obj [("response", Json.arr [Json.obj [("service", Json.str "ADMIN"),
          ("command", Json.str "LOGIN"),
          ("content", Json.obj [("code", Json.num 0)])]])])]).1.connected = false
    ∧ (recv_streamer ⟨false, fun _ => none⟩
        [none, some (Json.obj [("response", Json.arr [Json.obj [("service", Json.str "ADMIN"),
          ("command", Json.str "LOGIN"),
          ("content", Json.obj [("code", Json.num 0)])]])])]).2.2
        = some "json.JSONDecodeError: invalid message"
    ∧ (recv_streamer ⟨false, fun _ => none⟩
        [some (Json.obj [("response", Json.arr [Json.obj [("service", Json.str "ADMIN"),
          ("command", Json.str "LOGIN"),
          ("content", Json.obj [("code", Json.num 0)])]])])]).1.connected = true
    ∧ (recv_streamer ⟨false, fun _ => none⟩
        [some (Json.obj [("response", Json.arr [Json.obj [("service", Json.str "ADMIN"),
          ("command", Json.str "LOGIN"),
          ("content", Json.obj [("code", Json.num 0)])]])])]).2.2 = none :=
  ⟨rfl, rfl, rfl, rfl⟩

/-- Witness for C6 (amended): after an error-free login frame, a non-JSON
message stops the loop with the reached state and no further reading. -/
theorem recv_bad_json_kills_loop_witness :
    recv_streamer ⟨false, fun _ => none⟩
        ([some (Json.obj [("response", Json.arr [Json.obj [("service", Json.str "ADMIN"),
          ("command", Json.str "LOGIN"),
          ("content", Json.obj [("code", Json.num 0)])]])])] ++ none :: [])
      = ((recv_streamer ⟨false, fun _ => none⟩
            [some (Json.obj [("response", Json.arr [Json.obj [("service", Json.str "ADMIN"),
              ("command", Json.str "LOGIN"),
              ("content", Json.obj [("code", Json.num 0)])]])])]).1,
         (recv_streamer ⟨false, fun _ => none⟩
            [some (Json.obj [("response", Json.arr [Json.obj [("service", Json.str "ADMIN"),
              ("command", Json.str "LOGIN"),
              ("content", Json.obj [("code", Json.num 0)])]])])]).2.1,
         some "json.JSONDecodeError: invalid message") :=
  (recv_bad_json_kills_loop ⟨false, fun _ => none⟩
    [some (Json.obj [("response", Json.arr [Json.obj [("service", Json.str "ADMIN"),
      ("command", Json.str "LOGIN"),
      ("content", Json.obj [("code", Json.num 0)])]])])] [] rfl).1


/-- Pointwise reading of a record write. -/
theorem Stock.get_set (s : Stock) (f g : QuoteField) (v : Json) :
    Stock.set s f v g = if g = f then v else s g := rfl

/-- Reading a conditional record write at a field it does not touch. -/
theorem if_set_other (b : Prop) [Decidable b] (s : Stock) (f : QuoteField) (v : Json)
    (g : QuoteField) (hne : g ≠ f) :
    (if b then s.set f v else s) g = s g := by
  split <;> simp [Stock.set, hne]

/-- Reading a conditional record write at the field it touches. -/
theorem if_set_same (b : Prop) [Decidable b] (s : Stock) (f : QuoteField) (v : Json) :
    (if b then s.set f v else s) f = if b then v else s f := by
  split <;> simp [Stock.set]

/-- Mirrored form of `if_set_other` (write in the else branch). -/
theorem if_else_set_other (b : Prop) [Decidable b] (s : Stock) (f : QuoteField) (v : Json)
    (g : QuoteField) (hne : g ≠ f) :
    (if b then s else s.set f v) g = s g := by
  split <;> simp [Stock.set, hne]

/-- Mirrored form of `if_set_same` (write in the else branch). -/
theorem if_else_set_same (b : Prop) [Decidable b] (s : Stock) (f : QuoteField) (v : Json) :
    (if b then s else s.set f v) f = if b then s f else v := by
  split <;> simp [Stock.set]

/-- Per-field value of the static identity pass. -/
theorem mergeStatic_apply (st : Stock) (ct : JDict) (f : QuoteField) :
    mergeStatic st ct f
      = match f with
        | QuoteField.delayed =>
            if Json.beq (st QuoteField.delayed) Json.null
            then ct.getD "delayed" else st QuoteField.delayed
        | QuoteField.assetMainType =>
            if Json.beq (st QuoteField.assetMainType) Json.null
            then ct.getD "assetMainType" else st QuoteField.assetMainType
        | QuoteField.assetSubType =>
            if Json.beq (st QuoteField.assetSubType) Json.null
            then ct.getD "assetSubType" else st QuoteField.assetSubType
        | QuoteField.cusip =>
            if Json.beq (st QuoteField.cusip) Json.null
            then ct.getD "cusip" else st QuoteField.cusip
        | g => st g := by
  cases f <;>
    simp [mergeStatic, staticFields, if_set_other, if_set_same]

/-- Per-field value of the mapped numeric pass. -/
theorem mergeMapped_apply (st : Stock) (ct : JDict) (f : QuoteField) :
    mergeMapped st ct f
      = match f with
        | QuoteField.bid_price =>
            if Json.beq (ct.getD "1") Json.null
            then st QuoteField.bid_price else ct.getD "1"
        | QuoteField.ask_price =>
            if Json.beq (ct.getD "2") Json.null
            then st QuoteField.ask_price else ct.getD "2"
        | QuoteField.last_price =>
            if Json.beq (ct.getD "3") Json.null
            then st QuoteField.last_price else ct.getD "3"
        | QuoteField.bid_size =>
            if Json.beq (ct.getD "4") Json.null
            then st QuoteField.bid_size else ct.getD "4"
        | QuoteField.ask_size =>
            if Json.beq (ct.getD "5") Json.null
            then st QuoteField.ask_size else ct.getD "5"
        | QuoteField.total_volume =>
            if Json.beq (ct.getD "8") Json.null
            then st QuoteField.total_volume else ct.getD "8"
        | QuoteField.high_price =>
            if Json.beq (ct.getD "10") Json.null
            then st QuoteField.high_price else ct.getD "10"
        | QuoteField.low_price =>
            if Json.beq (ct.getD "11") Json.null
            then st QuoteField.low_price else ct.getD "11"
        | QuoteField.close_price =>
            if Json.beq (ct.getD "12") Json.null
            then st QuoteField.close_price else ct.getD "12"
        | g => st g := by
  cases f <;>
    simp [mergeMapped, levelone_equities_map, if_else_set_other, if_else_set_same]

/-- Per-field value of one content merge (static pass, timestamp write,
mapped pass) applied to a record `st`: the timestamp is always the frame's;
each static identity field keeps a non-`None` value and is otherwise set
from the frame; each mapped numeric field is overwritten exactly when the
frame carries it non-`None`; the symbol is untouched. -/
theorem merged_apply (ts : Json) (ct : JDict) (st : Stock) (f : QuoteField) :
    mergeMapped ((mergeStatic st ct).set QuoteField.timestamp ts) ct f
      = match f with
        | QuoteField.symbol => st QuoteField.symbol
        | QuoteField.timestamp => ts
        | QuoteField.delayed =>
            if Json.beq (st QuoteField.delayed) Json.null
            then ct.getD "delayed" else st QuoteField.delayed
        | QuoteField.assetMainType =>
            if Json.beq (st QuoteField.assetMainType) Json.null
            then ct.getD "assetMainType" else st QuoteField.assetMainType
        | QuoteField.assetSubType =>
            if Json.beq (st QuoteField.assetSubType) Json.null
            then ct.getD "assetSubType" else st QuoteField.assetSubType
        | QuoteField.cusip =>
            if Json.beq (st QuoteField.cusip) Json.null
            then ct.getD "cusip" else st QuoteField.cusip
        | QuoteField.bid_price =>
            if Json.beq (ct.getD "1") Json.null
            then st QuoteField.bid_price else ct.getD "1"
        | QuoteField.ask_price =>
            if Json.beq (ct.getD "2") Json.null
            then st QuoteField.ask_price else ct.getD "2"
        | QuoteField.last_price =>
            if Json.beq (ct.getD "3") Json.null
            then st QuoteField.last_price else ct.getD "3"
        | QuoteField.bid_size =>
            if Json.beq (ct.getD "4") Json.null
            then st QuoteField.bid_size else ct.getD "4"
        | QuoteField.ask_size =>
            if Json.beq (ct.getD "5") Json.null
            then st QuoteField.ask_size else ct.getD "5"
        | QuoteField.total_volume =>
            if Json.beq (ct.getD "8") Json.null
            then st QuoteField.total_volume else ct.getD "8"
        | QuoteField.high_price =>
            if Json.beq (ct.getD "10") Json.null
            then st QuoteField.high_price else ct.getD "10"
        | QuoteField.low_price =>
            if Json.beq (ct.getD "11") Json.null
            then st QuoteField.low_price else ct.getD "11"
        | QuoteField.close_price =>
            if Json.beq (ct.getD "12") Json.null
            then st QuoteField.close_price else ct.getD "12" := by
  cases f <;>
    simp [mergeMapped_apply, mergeStatic_apply, Stock.get_set]

/-- The cache after one content merge: only the record at the content's
`"key"` changes, to the merge of the previous record there (a fresh
`initStock` when unseen). -/
theorem applyContent_cache (c : Cache) (ts : Json) (ct : JDict) (s : Json) :
    (applyContent c ts ct).1 s
      = if Json.beq s (ct.getD "key") then
          some (mergeMapped ((mergeStatic
              (match c (ct.getD "key") with
               | some st => st
               | none => initStock (ct.getD "key")) ct).set QuoteField.timestamp ts) ct)
        else c s := rfl


/-- Boolean equality is false exactly on distinct JSON values. -/
theorem Json.beq_false_iff (a b : Json) : Json.beq a b = false ↔ a ≠ b := by
  rw [Bool.eq_false_iff]
  exact not_congr (Json.beq_iff a b)

/-- One content merge is idempotent on records. -/
theorem merged_idem (ts : Json) (ct : JDict) (st : Stock) :
    mergeMapped ((mergeStatic
        (mergeMapped ((mergeStatic st ct).set QuoteField.timestamp ts) ct)
        ct).set QuoteField.timestamp ts) ct
      = mergeMapped ((mergeStatic st ct).set QuoteField.timestamp ts) ct := by
  funext f
  cases f <;> simp only [merged_apply] <;> split_ifs <;> simp_all

/-- Effect of one content merge on the record a cache holds at any key `s`:
the record survives; away from the content's key it is untouched; at the
key the timestamp is overwritten with the frame's, every non-`None`
static/identity field keeps its value, every non-`None` field other than
the timestamp stays non-`None`, and each mapped numeric field is
overwritten exactly when the frame carries it. -/
theorem applyContent_preserves (c : Cache) (ts : Json) (ct : JDict) (s : Json)
    (st : Stock) (h : c s = some st) :
    ∃ st', (applyContent c ts ct).1 s = some st'
      ∧ (∀ f : QuoteField, f ≠ QuoteField.timestamp →
            st f ≠ Json.null → st' f ≠ Json.null)
      ∧ (∀ f ∈ [QuoteField.symbol, QuoteField.delayed, QuoteField.assetMainType,
            QuoteField.assetSubType, QuoteField.cusip],
            st f ≠ Json.null → st' f = st f)
      ∧ (∀ (f : QuoteField) (k : String), (k, f) ∈ levelone_equities_map →
            ct.getD k = Json.null → st' f = st f)
      ∧ (Json.beq s (ct.getD "key") = true → st' QuoteField.timestamp = ts)
      ∧ (∀ (f : QuoteField) (k : String), (k, f) ∈ levelone_equities_map →
            ct.getD k ≠ Json.null → Json.beq s (ct.getD "key") = true →
            st' f = ct.getD k) := by
  cases hb : Json.beq s (ct.getD "key") with
  | false =>
      refine ⟨st, ?_, fun f _ hnn => hnn, fun f _ _ => rfl, fun f k _ _ => rfl,
        fun ht => absurd ht Bool.false_ne_true,
        fun f k _ _ ht => absurd ht Bool.false_ne_true⟩
      rw [applyContent_cache, if_neg (by simp [hb])]
      exact h
  | true =>
      have hs : s = ct.getD "key" := (Json.beq_iff _ _).mp hb
      have hcs : c (ct.getD "key") = some st := by rw [← hs]; exact h
      refine ⟨mergeMapped ((mergeStatic st ct).set QuoteField.timestamp ts) ct,
        ?_, ?_, ?_, ?_, ?_, ?_⟩
      · rw [applyContent_cache, if_pos (by simp [hb]), hcs]
      · intro f hf hnn
        cases f <;> simp only [merged_apply] <;>
          first
            | exact hnn
            | exact absurd rfl hf
            | (split_ifs with hc
               · exact absurd ((Json.beq_iff _ _).mp hc) hnn
               · exact hnn)
            | (split_ifs with hc
               · exact hnn
               · exact fun he => hc ((Json.beq_iff _ _).mpr he))
      · intro f hmem hnn
        fin_cases hmem <;> simp only [merged_apply] <;>
          first
            | rfl
            | exact if_neg (fun hc => hnn ((Json.beq_iff _ _).mp hc))
      · intro f k hk hnull
        cases f <;> simp [levelone_equities_map] at hk <;>
          (subst hk
           simp only [merged_apply]
           rw [if_pos ((Json.beq_iff _ _).mpr hnull)])
      · intro _
        simp only [merged_apply]
      · intro f k hk hnn _
        cases f <;> simp [levelone_equities_map] at hk <;>
          (subst hk
           simp only [merged_apply]
           rw [if_neg (fun hc => hnn ((Json.beq_iff _ _).mp hc))])


/-- Reapplying an update that omits a static field leaves it unchanged. -/
theorem static_reapply (x v : Json) (hv : v = Json.null) :
    (if Json.beq x Json.null then v else x) = x := by
  subst hv
  split_ifs with hc
  · exact ((Json.beq_iff _ _).mp hc).symm
  · rfl

/-- Reapplying an update that omits a mapped numeric field leaves it
unchanged. -/
theorem mapped_reapply (x v : Json) (hv : v = Json.null) :
    (if Json.beq v Json.null then x else v) = x := by
  subst hv
  rw [if_pos (Json.beq_refl Json.null)]

/-- C3.  Amended quote-cache merge invariant: over every cache state and
every sequence of partial level-one updates, a record never disappears, a
non-`None` field other than the frame timestamp is never cleared, and a
non-`None` static identity field (and the symbol) is never changed; and for
one update, a mapped numeric field the frame omits retains its cached
value, the frame timestamp always overwrites the touched record's
timestamp (so a frame carrying no timestamp clears it — the one exception
to the frozen claim, see the counterexample), and a mapped numeric field
the frame carries is overwritten with the frame's value. -/
theorem quote_merge_invariant :
    (∀ (ups : List (Json × JDict)) (c : Cache) (s : Json) (st : Stock),
        c s = some st →
        ∃ st', applyUpdates c ups s = some st'
          ∧ (∀ f : QuoteField, f ≠ QuoteField.timestamp →
                st f ≠ Json.null → st' f ≠ Json.null)
          ∧ (∀ f ∈ [QuoteField.symbol, QuoteField.delayed, QuoteField.assetMainType,
                QuoteField.assetSubType, QuoteField.cusip],
                st f ≠ Json.null → st' f = st f))
    ∧ (∀ (c : Cache) (ts : Json) (ct : JDict) (s : Json) (st : Stock),
        c s = some st →
        ∃ st', (applyContent c ts ct).1 s = some st'
          ∧ (∀ (f : QuoteField) (k : String), (k, f) ∈ levelone_equities_map →
                ct.getD k = Json.null → st' f = st f)
          ∧ (Json.beq s (ct.getD "key") = true → st' QuoteField.timestamp = ts)
          ∧ (∀ (f : QuoteField) (k : String), (k, f) ∈ levelone_equities_map →
                ct.getD k ≠ Json.null → Json.beq s (ct.getD "key") = true →
                st' f = ct.getD k)) := by
  constructor
  · intro ups
    induction ups with
    | nil => exact fun c s st h => ⟨st, h, fun f _ hnn => hnn, fun f _ _ => rfl⟩
    | cons u ups ih =>
        intro c s st h
        obtain ⟨st₁, h₁, a₁, b₁, _, _, _⟩ := applyContent_preserves c u.1 u.2 s st h
        obtain ⟨st', h', a', b'⟩ := ih (applyContent c u.1 u.2).1 s st₁ h₁
        refine ⟨st', h', ?_, ?_⟩
        · exact fun f hf hnn => a' f hf (a₁ f hf hnn)
        · intro f hmem hnn
          have e₁ := b₁ f hmem hnn
          have hn₁ : st₁ f ≠ Json.null := by rw [e₁]; exact hnn
          rw [b' f hmem hn₁, e₁]
  · intro c ts ct s st h
    obtain ⟨st', h', _, _, c₁, d₁, e₁⟩ := applyContent_preserves c ts ct s st h
    exact ⟨st', h', c₁, d₁, e₁⟩

/-- C3, counterexample to the claim as frozen: a record whose timestamp is
`5` receives an update omitting the frame timestamp (no `"timestamp"` key,
so the loop reads `None`), and the cached timestamp — a present field the
update omits — is cleared to `None`. -/
theorem quote_cache_timestamp_cleared :
    ((applyUpdates (fun _ => none)
        [(Json.num 5, [("key", Json.str "A")]),
         (Json.null, [("key", Json.str "A")])]) (Json.str "A")).map
        (fun st => st QuoteField.timestamp) = some Json.null
    ∧ ((applyUpdates (fun _ => none)
        [(Json.num 5, [("key", Json.str "A")])]) (Json.str "A")).map
        (fun st => st QuoteField.timestamp) = some (Json.num 5)
    ∧ Json.null ≠ Json.num 5 :=
  ⟨rfl, rfl, fun h => Json.noConfusion h⟩

/-- Witness for C3: a cached record holding a bid price keeps a non-`None`
bid price across an update, and a static identity field keeps its exact
value. -/
theorem quote_merge_invariant_witness :
    ∃ st', applyUpdates (Cache.set (fun _ => none) (Json.str "A")
        (fun f => if f = QuoteField.bid_price then Json.num 1
                  else if f = QuoteField.cusip then Json.str "C1" else Json.null))
        [(Json.num 7, [("key", Json.str "A")])] (Json.str "A") = some st'
      ∧ st' QuoteField.bid_price ≠ Json.null
      ∧ st' QuoteField.cusip = Json.str "C1" := by
  obtain ⟨h1, _⟩ := quote_merge_invariant
  obtain ⟨st', hs, hnn, hstat⟩ := h1 [(Json.num 7, [("key", Json.str "A")])]
    (Cache.set (fun _ => none) (Json.str "A")
      (fun f => if f = QuoteField.bid_price then Json.num 1
                else if f = QuoteField.cusip then Json.str "C1" else Json.null))
    (Json.str "A")
    (fun f => if f = QuoteField.bid_price then Json.num 1
              else if f = QuoteField.cusip then Json.str "C1" else Json.null)
    rfl
  refine ⟨st', hs, ?_, ?_⟩
  · exact hnn QuoteField.bid_price (by decide) (by simp)
  · exact (hstat QuoteField.cusip (by simp) (by simp)).trans (by simp)

/-- C9.  Amended: applying the same partial update twice yields the same
cache as applying it once; and after applying update A then update B,
reapplying A leaves every field unchanged except the frame timestamp and
the fields A itself carries — in particular every B-exclusive field other
than the timestamp (B's exclusive numeric and static fields are omitted by
A) is left intact.  The frame timestamp is the exception the frozen claim
misses: reapplying A rewrites it to A's timestamp (see the
counterexample). -/
theorem quote_merge_idempotent :
    (∀ (c : Cache) (ts : Json) (ct : JDict),
        applyUpdates c [(ts, ct), (ts, ct)] = applyUpdates c [(ts, ct)])
    ∧ (∀ (c : Cache) (A B : Json × JDict) (s : Json) (f : QuoteField),
        f ≠ QuoteField.timestamp →
        (∀ k : String, (k, f) ∈ levelone_equities_map → A.2.getD k = Json.null) →
        (∀ name : String, (f, name) ∈ staticFields → A.2.getD name = Json.null) →
        (applyUpdates c [A, B, A] s).map (fun st => st f)
          = (applyUpdates c [A, B] s).map (fun st => st f)) := by
  constructor
  · intro c ts ct
    funext s
    show (applyContent (applyContent c ts ct).1 ts ct).1 s = (applyContent c ts ct).1 s
    by_cases hb : Json.beq s (ct.getD "key") = true
    · have hkey : (applyContent c ts ct).1 (ct.getD "key")
          = some (mergeMapped ((mergeStatic
              (match c (ct.getD "key") with
               | some st => st
               | none => initStock (ct.getD "key")) ct).set QuoteField.timestamp ts) ct) := by
        rw [applyContent_cache, if_pos (Json.beq_refl _)]
      rw [applyContent_cache (applyContent c ts ct).1 ts ct s, if_pos hb, hkey,
        applyContent_cache c ts ct s, if_pos hb]
      exact congrArg some (merged_idem ts ct _)
    · rw [applyContent_cache (applyContent c ts ct).1 ts ct s, if_neg hb]
  · intro c A B s f hf hA hAs
    obtain ⟨tsA, ctA⟩ := A
    obtain ⟨tsB, ctB⟩ := B
    show ((applyContent (applyUpdates c [(tsA, ctA), (tsB, ctB)]) tsA ctA).1 s).map _
        = ((applyUpdates c [(tsA, ctA), (tsB, ctB)]) s).map _
    rw [applyContent_cache]
    by_cases hb : Json.beq s (ctA.getD "key") = true
    case neg => rw [if_neg hb]
    case pos =>
        have hs : s = ctA.getD "key" := (Json.beq_iff _ _).mp hb
        have hex : ∃ st₂, applyUpdates c [(tsA, ctA), (tsB, ctB)] (ctA.getD "key")
            = some st₂ := by
          show ∃ st₂, (applyContent (applyContent c tsA ctA).1 tsB ctB).1 (ctA.getD "key")
              = some st₂
          rw [applyContent_cache]
          by_cases hbb : Json.beq (ctA.getD "key") (ctB.getD "key") = true
          · exact ⟨_, if_pos hbb⟩
          · rw [if_neg hbb]
            exact ⟨_, by rw [applyContent_cache, if_pos (Json.beq_refl _)]⟩
        obtain ⟨st₂, hst₂⟩ := hex
        rw [if_pos hb, hs, hst₂]
        show some (mergeMapped ((mergeStatic st₂ ctA).set QuoteField.timestamp tsA) ctA f)
            = some (st₂ f)
        refine congrArg some ?_
        cases f with
        | symbol => simp only [merged_apply]
        | timestamp => exact absurd rfl hf
        | delayed =>
            simp only [merged_apply]
            exact static_reapply _ _ (hAs "delayed" (by decide))
        | assetMainType =>
            simp only [merged_apply]
            exact static_reapply _ _ (hAs "assetMainType" (by decide))
        | assetSubType =>
            simp only [merged_apply]
            exact static_reapply _ _ (hAs "assetSubType" (by decide))
        | cusip =>
            simp only [merged_apply]
            exact static_reapply _ _ (hAs "cusip" (by decide))
        | bid_price =>
            simp only [merged_apply]
            exact mapped_reapply _ _ (hA "1" (by decide))
        | ask_price =>
            simp only [merged_apply]
            exact mapped_reapply _ _ (hA "2" (by decide))
        | last_price =>
            simp only [merged_apply]
            exact mapped_reapply _ _ (hA "3" (by decide))
        | bid_size =>
            simp only [merged_apply]
            exact mapped_reapply _ _ (hA "4" (by decide))
        | ask_size =>
            simp only [merged_apply]
            exact mapped_reapply _ _ (hA "5" (by decide))
        | total_volume =>
            simp only [merged_apply]
            exact mapped_reapply _ _ (hA "8" (by decide))
        | high_price =>
            simp only [merged_apply]
            exact mapped_reapply _ _ (hA "10" (by decide))
        | low_price =>
            simp only [merged_apply]
            exact mapped_reapply _ _ (hA "11" (by decide))
        | close_price =>
            simp only [merged_apply]
            exact mapped_reapply _ _ (hA "12" (by decide))

/-- C9, counterexample to the claim as frozen: update A (no frame
timestamp, bid price only) has its field set contained in update B's
(timestamp, bid, ask); after A, B, A the B-exclusive timestamp has been
reset to `None` instead of B's `111`. -/
theorem quote_merge_reapply_counterexample :
    ((applyUpdates (fun _ => none)
        [(Json.null, [("key", Json.str "A"), ("1", Json.num 10)]),
         (Json.num 111, [("key", Json.str "A"), ("1", Json.num 11), ("2", Json.num 22)]),
         (Json.null, [("key", Json.str "A"), ("1", Json.num 10)])]) (Json.str "A")).map
        (fun st => st QuoteField.timestamp) = some Json.null
    ∧ ((applyUpdates (fun _ => none)
        [(Json.null, [("key", Json.str "A"), ("1", Json.num 10)]),
         (Json.num 111, [("key", Json.str "A"), ("1", Json.num 11), ("2", Json.num 22)])])
        (Json.str "A")).map
        (fun st => st QuoteField.timestamp) = some (Json.num 111)
    ∧ Json.null ≠ Json.num 111 :=
  ⟨rfl, rfl, fun h => Json.noConfusion h⟩

/-- Witness for C9: with A carrying only the bid price and B additionally
the ask price, B's exclusive ask price survives the reapplication of A. -/
theorem quote_merge_idempotent_witness :
    ((applyUpdates (fun _ => none)
        [(Json.num 1, [("key", Json.str "A"), ("1", Json.num 10)]),
         (Json.num 2, [("key", Json.str "A"), ("1", Json.num 11), ("2", Json.num 22)]),
         (Json.num 1, [("key", Json.str "A"), ("1", Json.num 10)])]) (Json.str "A")).map
        (fun st => st QuoteField.ask_price)
      = ((applyUpdates (fun _ => none)
        [(Json.num 1, [("key", Json.str "A"), ("1", Json.num 10)]),
         (Json.num 2, [("key", Json.str "A"), ("1", Json.num 11), ("2", Json.num 22)])])
        (Json.str "A")).map
        (fun st => st QuoteField.ask_price) := by
  have h := quote_merge_idempotent
  exact h.2 (fun _ => none)
    (Json.num 1, [("key", Json.str "A"), ("1", Json.num 10)])
    (Json.num 2, [("key", Json.str "A"), ("1", Json.num 11), ("2", Json.num 22)])
    (Json.str "A") QuoteField.ask_price (by decide)
    (by intro k hk
        simp [levelone_equities_map] at hk
        subst hk
        rfl)
    (by intro name hname
        simp [staticFields] at hname)


end TokenLock
